import Mathlib

/-!
Verification development for the Figma MCP server (`src/server.ts`).

The embedding models, at the level of explicit state passing:
  * the URL Resolver (`parseFigmaUrl`, server.ts:211-232), on top of a model of
    the platform WHATWG URL parser restricted to the `scheme://host/path?query#frag`
    shape (other URL forms are treated as unparseable, and percent-decoding of
    query values is elided — no claim depends on either);
  * the Token Store and Pending Authorization State maps (insertion-ordered
    association lists mirroring JS `Map`);
  * the OAuth helpers (`getValidAccessToken`, server.ts:387-404; the callback
    handler `handleAuthCallback`, server.ts:786-858), with the network endpoints
    (token exchange, token refresh, Figma REST API) as oracles in an `Env`;
  * the Tool Dispatcher (`CallToolRequestSchema` handler, server.ts:488-711),
    including the zod argument parsers, the auth gate, and the four tool cases;
  * the XML serializer `nodeToXml` (server.ts:628-650).

JS numbers that the claims exercise (timestamps, `expires_in`, `scale`,
bounding boxes) are modelled as `Nat`/`Int`; strings are Lean `String`s
(`List Char` underneath).
-/

namespace FigmaMcp

/-! ## Character-list helpers (used by the URL model) -/

/-- Split a character list at the first occurrence of `c`: returns the part
before and the part after (the separator removed), or `none` when `c` does not
occur. -/
def splitFirstChar (l : List Char) (c : Char) : Option (List Char × List Char) :=
  match l with
  | [] => none
  | x :: xs =>
    if x == c then some ([], xs)
    else
      match splitFirstChar xs c with
      | none => none
      | some (a, b) => some (x :: a, b)

/-- Characters before the first occurrence of `c` (everything when `c` is absent). -/
def takeUntilChar (l : List Char) (c : Char) : List Char :=
  match l with
  | [] => []
  | x :: xs => if x == c then [] else x :: takeUntilChar xs c

/-- Split on every occurrence of the separator character. -/
def splitOnChar (l : List Char) (c : Char) : List (List Char) :=
  match l with
  | [] => [[]]
  | x :: xs =>
    if x == c then [] :: splitOnChar xs c
    else
      match splitOnChar xs c with
      | [] => [[x]]
      | h :: t => (x :: h) :: t

/-! ## URL Resolver (server.ts:211-232)

`parseFigmaUrl` runs `new URL(url)` inside a try/catch, extracts the file key
with the regex `\/(design|file)\/([^/]+)` over the pathname, reads the
`node-id` query parameter, replaces every `-` with `:`, and returns the pair
only when both pieces are non-empty. -/

/-- The components of a parsed URL that `parseFigmaUrl` consumes. -/
structure URLObj where
  pathname : List Char
  searchParams : List (List Char × List Char)
  deriving Repr, DecidableEq

/-- Allowed characters of a URL scheme. -/
def isSchemeChar (c : Char) : Bool :=
  c.isAlpha || c.isDigit || c == '+' || c == '-' || c == '.'

/-- application/x-www-form-urlencoded query parsing: split on `&`, drop empty
pieces, split each piece at its first `=` (pieces without `=` get an empty
value). Percent-decoding is elided. -/
def parseQuery (q : List Char) : List (List Char × List Char) :=
  if q.isEmpty then []
  else
    (splitOnChar q '&').filterMap fun piece =>
      if piece.isEmpty then none
      else
        match splitFirstChar piece '=' with
        | none => some (piece, [])
        | some (k, v) => some (k, v)

/-- Split what follows the authority into pathname and query: an empty or
query-only remainder gets the root pathname `/`; otherwise cut at the first
`?`. -/
def splitPathQuery (tail : List Char) : List Char × List Char :=
  match tail with
  | [] => (['/'], [])
  | '?' :: q => (['/'], q)
  | t =>
    match splitFirstChar t '?' with
    | none => (t, [])
    | some (p, q) => (p, q)

/-- Model of the platform URL parser (`new URL(url)` from `node:url`),
restricted to the `scheme://host/path?query#fragment` shape: any other form is
reported as a parse failure, which the resolver's try/catch turns into
"no match". -/
def parseURLAux (l : List Char) : Option URLObj :=
  match splitFirstChar l ':' with
  | none => none
  | some (scheme, rest) =>
    if !scheme.isEmpty && scheme.all isSchemeChar then
      match rest with
      | '/' :: '/' :: rest2 =>
        let rest3 := takeUntilChar rest2 '#'
        let host := rest3.takeWhile fun c => !(c == '/' || c == '?')
        let tail := rest3.dropWhile fun c => !(c == '/' || c == '?')
        if host.isEmpty then none
        else
          let pq := splitPathQuery tail
          some { pathname := pq.1, searchParams := parseQuery pq.2 }
      | _ => none
    else none

/-- `searchParams.get(k)`: value of the first parameter named `k`. -/
def getParam (params : List (List Char × List Char)) (k : List Char) : Option (List Char) :=
  (params.find? fun p => p.1 == k).map (·.2)

/-- At one position, try to match `/(design|file)\/([^/]+)` (the second group
must be non-empty, as `[^/]+` requires at least one character). -/
def segAfter (kw : List Char) (l : List Char) : Option (List Char) :=
  if ('/' :: kw ++ ['/']).isPrefixOf l then
    let seg := (l.drop (kw.length + 2)).takeWhile fun c => !(c == '/')
    if seg.isEmpty then none else some seg
  else none

/-- The first match of the regex `\/(design|file)\/([^/]+)` over the pathname:
scan left to right, at each position trying `design` before `file`; return the
captured segment, or `[]` when there is no match (so that the file key defaults
to the empty string, exactly as `pathMatch ? pathMatch[2] : ""`). -/
def scanMatch : List Char → List Char
  | [] => []
  | c :: cs =>
    match segAfter "design".data (c :: cs) with
    | some seg => seg
    | none =>
      match segAfter "file".data (c :: cs) with
      | some seg => seg
      | none => scanMatch cs

/-- `nodeIdParam.replace(dash-regex, ":")`: every `-` becomes `:`. -/
def dashToColon (l : List Char) : List Char :=
  l.map fun c => if c == '-' then ':' else c

/-- String-level version of `dashToColon`. -/
def dashToColonS (s : String) : String :=
  String.mk (dashToColon s.data)

/-- `parseFigmaUrl` (server.ts:211-232). Returns `none` ("no match") when the
URL fails to parse, when the path regex does not match, or when the `node-id`
parameter is absent or empty. -/
def parseFigmaUrl (url : String) : Option (String × String) :=
  match parseURLAux url.data with
  | none => none
  | some obj =>
    let fileKey := String.mk (scanMatch obj.pathname)
    let nodeId :=
      match getParam obj.searchParams "node-id".data with
      | some v => String.mk (dashToColon v)
      | none => ""
    if fileKey ≠ "" ∧ nodeId ≠ "" then some (fileKey, nodeId) else none

/-! ## Association-list model of JS `Map` (insertion order kept, `set` replaces in place) -/

/-- `Map.get`. -/
def alGet {α : Type} (m : List (String × α)) (k : String) : Option α :=
  (m.find? fun p => p.1 == k).map (·.2)

/-- `Map.set`: replace the value at `k` in place, or append a new entry. -/
def alSet {α : Type} : List (String × α) → String → α → List (String × α)
  | [], k, v => [(k, v)]
  | (k', v') :: rest, k, v =>
    if k' == k then (k, v) :: rest else (k', v') :: alSet rest k v

/-- `Map.delete`. -/
def alDelete {α : Type} (m : List (String × α)) (k : String) : List (String × α) :=
  m.filter fun p => p.1 != k

/-! ## JSON-shaped tool arguments and the zod parsers (server.ts:185-208) -/

/-- A JSON value as far as the tool argument parsers need to distinguish
(JS numbers that reach the parsers are modelled as `Nat`). -/
inductive JValue where
  | jstr : String → JValue
  | jnum : Nat → JValue
  | jbool : Bool → JValue
  | jnull : JValue
  deriving Repr, DecidableEq

/-- The raw `request.params.arguments ?? {}` object. -/
def RawArgs := List (String × JValue)

/-- `z.string().optional()` on one field: absent is fine, a string is fine,
anything else fails the parse. Like zod's non-strict `z.object`, unknown keys
are ignored. -/
def parseOptString (raw : RawArgs) (k : String) : Option (Option String) :=
  match alGet raw k with
  | none => some none
  | some (JValue.jstr s) => some (some s)
  | some _ => none

structure ScreenshotArgs where
  fileKey : Option String
  nodeId : Option String
  url : Option String
  scale : Option Nat
  deriving Repr, DecidableEq

structure ContextArgs where
  fileKey : Option String
  nodeId : Option String
  url : Option String
  deriving Repr, DecidableEq

structure MetadataArgs where
  fileKey : Option String
  nodeId : Option String
  url : Option String
  deriving Repr, DecidableEq

structure DiagramArgs where
  mermaidCode : String
  diagramType : Option String
  title : Option String
  deriving Repr, DecidableEq

/-- `getScreenshotParser.parse` (server.ts:185-190); a `none` result models the
thrown `ZodError`. -/
def getScreenshotParser (raw : RawArgs) : Option ScreenshotArgs := do
  let fileKey ← parseOptString raw "fileKey"
  let nodeId ← parseOptString raw "nodeId"
  let url ← parseOptString raw "url"
  let scale ←
    match alGet raw "scale" with
    | none => some none
    | some (JValue.jnum n) => if 1 ≤ n ∧ n ≤ 4 then some (some n) else none
    | some _ => none
  some ⟨fileKey, nodeId, url, scale⟩

/-- `getDesignContextParser.parse` (server.ts:192-196). -/
def getDesignContextParser (raw : RawArgs) : Option ContextArgs := do
  let fileKey ← parseOptString raw "fileKey"
  let nodeId ← parseOptString raw "nodeId"
  let url ← parseOptString raw "url"
  some ⟨fileKey, nodeId, url⟩

/-- `getMetadataParser.parse` (server.ts:198-202). -/
def getMetadataParser (raw : RawArgs) : Option MetadataArgs := do
  let fileKey ← parseOptString raw "fileKey"
  let nodeId ← parseOptString raw "nodeId"
  let url ← parseOptString raw "url"
  some ⟨fileKey, nodeId, url⟩

/-- `generateDiagramParser.parse` (server.ts:204-208): `mermaidCode` is a
required string, `diagramType` an optional member of the enum, `title` an
optional string. -/
def generateDiagramParser (raw : RawArgs) : Option DiagramArgs := do
  let mermaidCode ←
    match alGet raw "mermaidCode" with
    | some (JValue.jstr s) => some s
    | _ => none
  let diagramType ←
    match alGet raw "diagramType" with
    | none => some none
    | some (JValue.jstr s) =>
      if ["flowchart", "sequence", "gantt", "state"].contains s
      then some (some s) else none
    | some _ => none
  let title ← parseOptString raw "title"
  some ⟨mermaidCode, diagramType, title⟩

/-! ## Figma node documents and `nodeToXml` (server.ts:628-650) -/

/-- `absoluteBoundingBox`; Figma coordinates modelled as integers (their JS
stringification agrees with `toString` on integral values). -/
structure BBox where
  x : Int
  y : Int
  width : Int
  height : Int
  deriving Repr, DecidableEq

/-- A node document as `nodeToXml` consumes it: `id`, `type`, `name`, an
optional bounding box, and the (possibly empty) children list. -/
inductive FNode where
  | mk (id type name : String) (bbox : Option BBox) (children : List FNode)

def FNode.id : FNode → String
  | .mk i _ _ _ _ => i

def FNode.type : FNode → String
  | .mk _ t _ _ _ => t

def FNode.name : FNode → String
  | .mk _ _ n _ _ => n

def FNode.bbox : FNode → Option BBox
  | .mk _ _ _ b _ => b

def FNode.children : FNode → List FNode
  | .mk _ _ _ _ cs => cs

/-- `"  ".repeat(depth)`. -/
def repeatString (s : String) (n : Nat) : String :=
  match n with
  | 0 => ""
  | n + 1 => s ++ repeatString s n

mutual

/-- `nodeToXml` (server.ts:628-647): one `<node>` element with `id`, `type`,
`name` attributes, bounding-box attributes only when present; self-closing when
childless, and otherwise an open/close pair around the children at depth + 1. -/
def nodeToXml (n : FNode) (depth : Nat) : String :=
  match n with
  | .mk i t nm bbox cs =>
    let indent := repeatString "  " depth
    let base := indent ++ "<node id=\"" ++ i ++ "\" type=\"" ++ t ++ "\" name=\"" ++ nm ++ "\""
    let withBox :=
      match bbox with
      | some b =>
        base ++ " x=\"" ++ toString b.x ++ "\" y=\"" ++ toString b.y ++
          "\" width=\"" ++ toString b.width ++ "\" height=\"" ++ toString b.height ++ "\""
      | none => base
    match cs with
    | [] => withBox ++ " />\n"
    | c :: rest => withBox ++ ">\n" ++ nodeToXml c (depth + 1) ++ nodesToXml rest (depth + 1) ++ indent ++ "</node>\n"

/-- The `for (const child of node.children) xml += nodeToXml(child, depth + 1)` loop. -/
def nodesToXml (l : List FNode) (depth : Nat) : String :=
  match l with
  | [] => ""
  | c :: cs => nodeToXml c depth ++ nodesToXml cs depth

end

/-- The full metadata string (server.ts:650): XML declaration, `<figma>` root,
the serialized tree at depth 1. -/
def xmlMetadataOf (root : FNode) : String :=
  "<?xml version=\"1.0\" encoding=\"UTF-8\"?>\n<figma>\n" ++ nodeToXml root 1 ++ "</figma>"

/-! ## Substring check (JS `String.prototype.includes`) -/

/-- `pat` occurs at the start of `l`. -/
def charListHasPre : List Char → List Char → Bool
  | [], _ => true
  | _ :: _, [] => false
  | p :: ps, c :: cs => p == c && charListHasPre ps cs

/-- `pat` occurs somewhere in `l`. -/
def charListHasSub (pat : List Char) : List Char → Bool
  | [] => pat.isEmpty
  | c :: cs => charListHasPre pat (c :: cs) || charListHasSub pat cs

/-- `s.includes(pat)`. -/
def containsSubstr (s pat : String) : Bool :=
  charListHasSub pat.data s.data

/-! ## Server state and environment -/

/-- One entry of `authSessions` (server.ts:51) — the Credential Record. -/
structure CredentialRecord where
  accessToken : String
  refreshToken : String
  expiresAt : Nat
  deriving Repr, DecidableEq

/-- One entry of `pendingAuthStates` (server.ts:52). -/
structure PendingAuth where
  sessionId : String
  createdAt : Nat
  deriving Repr, DecidableEq

/-- The two process-wide mutable maps. -/
structure ServerState where
  authSessions : List (String × CredentialRecord)
  pendingAuthStates : List (String × PendingAuth)
  deriving Repr, DecidableEq

/-- A Figma REST response, duck-typed like the JS code reads it: the images
map of `/images/...`, the nodes map of `/files/.../nodes?ids=...` (collapsing
`nodes[id]?.document` into one lookup), and the `document` of `/files/...`. -/
structure ApiResp where
  images : List (String × String) := []
  nodes : List (String × FNode) := []
  document : Option FNode := none

/-- The ambient world: the clock, the random state token minted for an auth
link, the OAuth configuration, and the three network oracles (`none` models a
non-2xx/thrown fetch). -/
structure Env where
  now : Nat
  randState : String
  clientId : String
  redirectUri : String
  refreshResp : String → Option (String × Nat)
  exchangeResp : String → Option (String × String × Nat)
  api : String → Option ApiResp

/-! ## OAuth helpers (server.ts:324-404) -/

/-- Hexadecimal digit, upper case. -/
def hexDigit (n : Nat) : Char :=
  if n < 10 then Char.ofNat ('0'.toNat + n) else Char.ofNat ('A'.toNat + n - 10)

/-- application/x-www-form-urlencoded encoding of one character (ASCII level;
multi-byte UTF-8 expansion elided — no claim touches it). -/
def encChar (c : Char) : List Char :=
  if c.isAlphanum || c == '*' || c == '-' || c == '.' || c == '_' then [c]
  else if c == ' ' then ['+']
  else
    let n := c.toNat % 256
    ['%', hexDigit (n / 16), hexDigit (n % 16)]

/-- `URLSearchParams.toString` applied to one value. -/
def formEncode (s : String) : String :=
  String.mk (s.data.map encChar).flatten

/-- `generateAuthUrl` (server.ts:324-336). -/
def generateAuthUrl (env : Env) (state : String) : String :=
  "https://www.figma.com/oauth?client_id=" ++ formEncode env.clientId ++
    "&redirect_uri=" ++ formEncode env.redirectUri ++
    "&scope=" ++ formEncode "file_read file_write" ++
    "&state=" ++ formEncode state ++
    "&response_type=code"

/-- `getValidAccessToken` (server.ts:387-404). Returns the outcome, the updated
Token Store, and how many times the refresh endpoint was invoked. -/
def getValidAccessToken (env : Env) (store : List (String × CredentialRecord))
    (sessionId : String) :
    Except String String × List (String × CredentialRecord) × Nat :=
  match alGet store sessionId with
  | none => (.error "Not authenticated. Please authenticate with Figma first.", store, 0)
  | some session =>
    if env.now ≥ session.expiresAt then
      match env.refreshResp session.refreshToken with
      | none => (.error "Failed to refresh token", store, 1)
      | some (tok, expiresIn) =>
        let session' : CredentialRecord :=
          { session with accessToken := tok, expiresAt := env.now + expiresIn * 1000 }
        (.ok session'.accessToken, alSet store sessionId session', 1)
    else (.ok session.accessToken, store, 0)

/-- `figmaApiRequest` (server.ts:406-429): obtain a token (refreshing if
needed), then fetch. Returns the outcome, the updated Token Store, the list of
endpoints actually fetched, and the refresh count. -/
def figmaApiRequest (env : Env) (store : List (String × CredentialRecord))
    (sessionId endpoint : String) :
    Except String ApiResp × List (String × CredentialRecord) × List String × Nat :=
  match getValidAccessToken env store sessionId with
  | (.error e, store', rc) => (.error e, store', [], rc)
  | (.ok _tok, store', rc) =>
    match env.api endpoint with
    | none => (.error ("Figma API error: " ++ endpoint), store', [endpoint], rc)
    | some r => (.ok r, store', [endpoint], rc)

/-! ## Tool responses and call outcomes -/

inductive ContentItem where
  | text (s : String)
  | image (data : Option String) (mimeType : String)

/-- The `structuredContent` payloads the four tools build. -/
inductive StructuredContent where
  | screenshot (fileKey nodeId : String) (imageUrl : Option String) (scale : Nat)
  | designContext (fileKey nodeId : String) (node : Option FNode) (code : String)
  | metadata (fileKey : String) (nodeId : Option String) (root : FNode)
  | diagram (mermaidCode : String) (diagramType title : Option String) (figmaUrl : String)

structure ToolResponse where
  content : List ContentItem
  structuredContent : Option StructuredContent

/-- What one tool call produces at the dispatch boundary: the auth-link
response of the unauthenticated branch (a normal, non-error response,
server.ts:502-509), the thrown `ZodError` of a failed argument parse, some
other thrown `Error(msg)`, or a normal tool response. -/
inductive CallOutcome where
  | authLink (text : String)
  | invalidArguments
  | errorMsg (msg : String)
  | ok (r : ToolResponse)

def CallOutcome.isAuthLink : CallOutcome → Bool
  | .authLink _ => true
  | _ => false

def CallOutcome.isInvalidArguments : CallOutcome → Bool
  | .invalidArguments => true
  | _ => false

def CallOutcome.isErrorMsg : CallOutcome → Bool
  | .errorMsg _ => true
  | _ => false

/-- The observable effect of one tool call. -/
structure CallResult where
  outcome : CallOutcome
  state : ServerState
  apiCalls : List String
  refreshCalls : Nat

/-! ## The four tool handlers (server.ts:514-705) -/

/-- `get_screenshot` (server.ts:514-559). -/
def getScreenshotTool (env : Env) (sessionId : String) (raw : RawArgs)
    (st : ServerState) : CallResult :=
  match getScreenshotParser raw with
  | none => ⟨.invalidArguments, st, [], 0⟩
  | some args =>
    let resolved :=
      if (args.url.getD "") ≠ "" then
        match parseFigmaUrl (args.url.getD "") with
        | some p => (some p.1, some p.2)
        | none => (args.fileKey, args.nodeId)
      else (args.fileKey, args.nodeId)
    if resolved.1.getD "" = "" ∨ resolved.2.getD "" = "" then
      ⟨.errorMsg "Both fileKey and nodeId are required. Provide them directly or via a Figma URL.",
        st, [], 0⟩
    else
      let fileKey := resolved.1.getD ""
      let nodeId := resolved.2.getD ""
      let scale := match args.scale with
        | some s => if s == 0 then 2 else s
        | none => 2
      let endpoint :=
        "/images/" ++ fileKey ++ "?ids=" ++ nodeId ++ "&scale=" ++ toString scale ++ "&format=png"
      match figmaApiRequest env st.authSessions sessionId endpoint with
      | (.error e, store', calls, rc) =>
        ⟨.errorMsg e, { st with authSessions := store' }, calls, rc⟩
      | (.ok resp, store', calls, rc) =>
        let imageUrl := alGet resp.images nodeId
        ⟨.ok { content := [.image imageUrl "image/png",
                           .text ("Screenshot generated for node " ++ nodeId ++ " in file " ++ fileKey)],
               structuredContent := some (.screenshot fileKey nodeId imageUrl scale) },
          { st with authSessions := store' }, calls, rc⟩

/-- `get_design_context` (server.ts:561-600). -/
def getDesignContextTool (env : Env) (sessionId : String) (raw : RawArgs)
    (st : ServerState) : CallResult :=
  match getDesignContextParser raw with
  | none => ⟨.invalidArguments, st, [], 0⟩
  | some args =>
    let resolved :=
      if (args.url.getD "") ≠ "" then
        match parseFigmaUrl (args.url.getD "") with
        | some p => (some p.1, some p.2)
        | none => (args.fileKey, args.nodeId)
      else (args.fileKey, args.nodeId)
    if resolved.1.getD "" = "" ∨ resolved.2.getD "" = "" then
      ⟨.errorMsg "Both fileKey and nodeId are required. Provide them directly or via a Figma URL.",
        st, [], 0⟩
    else
      let fileKey := resolved.1.getD ""
      let nodeId := resolved.2.getD ""
      let endpoint := "/files/" ++ fileKey ++ "/nodes?ids=" ++ nodeId
      match figmaApiRequest env st.authSessions sessionId endpoint with
      | (.error e, store', calls, rc) =>
        ⟨.errorMsg e, { st with authSessions := store' }, calls, rc⟩
      | (.ok resp, store', calls, rc) =>
        let node := alGet resp.nodes nodeId
        let typeText :=
          match node with
          | some d => if d.type = "" then "unknown" else d.type
          | none => "unknown"
        ⟨.ok { content := [.text ("Design context retrieved for node " ++ nodeId ++
                                  ". Node type: " ++ typeText)],
               structuredContent := some (.designContext fileKey nodeId node
                 "// UI code would be generated here based on the design") },
          { st with authSessions := store' }, calls, rc⟩

/-- `get_metadata` (server.ts:602-665). A missing root node makes the JS
`nodeToXml` crash on `node.id`; that is modelled as a thrown `TypeError`. -/
def getMetadataTool (env : Env) (sessionId : String) (raw : RawArgs)
    (st : ServerState) : CallResult :=
  match getMetadataParser raw with
  | none => ⟨.invalidArguments, st, [], 0⟩
  | some args =>
    let resolved :=
      if (args.url.getD "") ≠ "" then
        match parseFigmaUrl (args.url.getD "") with
        | some p => (some p.1, some p.2)
        | none => (args.fileKey, args.nodeId)
      else (args.fileKey, args.nodeId)
    if resolved.1.getD "" = "" then
      ⟨.errorMsg "fileKey is required. Provide it directly or via a Figma URL.", st, [], 0⟩
    else
      let fileKey := resolved.1.getD ""
      let nodeId := resolved.2
      let endpoint :=
        if nodeId.getD "" ≠ "" then "/files/" ++ fileKey ++ "/nodes?ids=" ++ nodeId.getD ""
        else "/files/" ++ fileKey
      match figmaApiRequest env st.authSessions sessionId endpoint with
      | (.error e, store', calls, rc) =>
        ⟨.errorMsg e, { st with authSessions := store' }, calls, rc⟩
      | (.ok resp, store', calls, rc) =>
        let rootNode :=
          if nodeId.getD "" ≠ "" then alGet resp.nodes (nodeId.getD "") else resp.document
        match rootNode with
        | none =>
          ⟨.errorMsg "TypeError: Cannot read properties of undefined",
            { st with authSessions := store' }, calls, rc⟩
        | some root =>
          ⟨.ok { content := [.text (xmlMetadataOf root)],
                 structuredContent := some (.metadata fileKey nodeId root) },
            { st with authSessions := store' }, calls, rc⟩

/-- The fixed list of recognized diagram-type keywords (server.ts:672). -/
def validDiagramTypes : List String :=
  ["flowchart", "graph", "sequenceDiagram", "gantt", "stateDiagram"]

/-- The unsupported-diagram-type response text (server.ts:681). -/
def unsupportedDiagramText : String :=
  "Error: This tool only supports flowcharts, sequence diagrams, gantt charts, and state diagrams. Class diagrams, timelines, venn diagrams, and entity relationship diagrams are not supported."

/-- JS `String.prototype.trim`: strip leading and trailing whitespace. -/
def jsTrim (l : List Char) : List Char :=
  ((l.dropWhile Char.isWhitespace).reverse.dropWhile Char.isWhitespace).reverse

/-- JS `String.prototype.toLowerCase` (ASCII level). -/
def toLowerS (s : String) : String :=
  String.mk (s.data.map Char.toLower)

/-- `args.mermaidCode.trim().split("\n")[0].toLowerCase()` (server.ts:673):
the first line of the trimmed diagram source, lower-cased. -/
def diagramFirstLine (mermaidCode : String) : String :=
  toLowerS (String.mk ((splitOnChar (jsTrim mermaidCode.data) '\n').headD []))

/-- `validDiagramTypes.some(type => firstLine.includes(type.toLowerCase()))`
(server.ts:674). -/
def diagramTypeIsValid (mermaidCode : String) : Bool :=
  validDiagramTypes.any fun t => containsSubstr (diagramFirstLine mermaidCode) (toLowerS t)

/-- `generate_diagram` (server.ts:667-705). -/
def generateDiagramTool (env : Env) (raw : RawArgs) (st : ServerState) : CallResult :=
  match generateDiagramParser raw with
  | none => ⟨.invalidArguments, st, [], 0⟩
  | some args =>
    if !diagramTypeIsValid args.mermaidCode then
      ⟨.ok { content := [.text unsupportedDiagramText], structuredContent := none }, st, [], 0⟩
    else
      let diagramUrl := "https://www.figma.com/file/mock-diagram-" ++ toString env.now
      let titleSuffix :=
        match args.title with
        | some t => if t = "" then "" else ": " ++ t
        | none => ""
      ⟨.ok { content := [.text ("Created FigJam diagram" ++ titleSuffix)],
             structuredContent := some (.diagram args.mermaidCode args.diagramType args.title diagramUrl) },
        st, [], 0⟩

/-! ## The Tool Dispatcher (server.ts:488-711) -/

/-- The text of the auth-link response (server.ts:506). -/
def authLinkText (env : Env) : String :=
  "Please authenticate with Figma to use this feature. Visit: " ++
    generateAuthUrl env env.randState

/-- The `CallToolRequestSchema` handler: every tool except `generate_diagram`
first passes the auth gate; an unauthenticated session gets the auth-link
response and a new Pending Authorization State entry, before any argument
validation. -/
def callTool (env : Env) (sessionId tool : String) (raw : RawArgs)
    (st : ServerState) : CallResult :=
  if tool ≠ "generate_diagram" ∧ (alGet st.authSessions sessionId).isNone then
    let pending' := alSet st.pendingAuthStates env.randState ⟨sessionId, env.now⟩
    ⟨.authLink (authLinkText env), { st with pendingAuthStates := pending' }, [], 0⟩
  else
    match tool with
    | "get_screenshot" => getScreenshotTool env sessionId raw st
    | "get_design_context" => getDesignContextTool env sessionId raw st
    | "get_metadata" => getMetadataTool env sessionId raw st
    | "generate_diagram" => generateDiagramTool env raw st
    | _ => ⟨.errorMsg ("Unknown tool: " ++ tool), st, [], 0⟩

/-! ## The OAuth callback (server.ts:786-858) -/

inductive CallbackResult where
  | errorPage (err : String)
  | badRequest (msg : String)
  | invalidState
  | exchangeFailed (msg : String)
  | success
  deriving Repr, DecidableEq

/-- `handleAuthCallback`: note the source order — the pending state is looked
up *first* (server.ts:809), and entries older than 10 minutes are swept only
*afterwards* (server.ts:816-822), so the sweep never protects the entry being
matched. Returns the HTTP result, the updated pending map, and the updated
Token Store. -/
def handleAuthCallback (env : Env) (code state error : Option String)
    (pending : List (String × PendingAuth))
    (store : List (String × CredentialRecord)) :
    CallbackResult × List (String × PendingAuth) × List (String × CredentialRecord) :=
  if (error.getD "") ≠ "" then (.errorPage (error.getD ""), pending, store)
  else if (code.getD "") = "" ∨ (state.getD "") = "" then
    (.badRequest "Missing code or state parameter", pending, store)
  else
    let c := code.getD ""
    let s := state.getD ""
    match alGet pending s with
    | none => (.invalidState, pending, store)
    | some pendingAuth =>
      let pending1 := pending.filter fun p => !(env.now - p.2.createdAt > 10 * 60 * 1000)
      match env.exchangeResp c with
      | none => (.exchangeFailed "Failed to exchange code for token", pending1, store)
      | some (accessToken, refreshToken, expiresIn) =>
        let store' := alSet store pendingAuth.sessionId
          ⟨accessToken, refreshToken, env.now + expiresIn * 1000⟩
        (.success, alDelete pending1 s, store')

/-! ## Shared sample data for concrete witnesses -/

/-- A sample world: clock at 660000 ms (11 minutes), token exchange and
refresh succeeding, REST API down. -/
def sampleEnv : Env :=
  { now := 660000, randState := "r", clientId := "", redirectUri := "",
    refreshResp := fun _ => some ("tokB", 3600),
    exchangeResp := fun _ => some ("tok", "rtok", 3600),
    api := fun _ => none }

/-- A fresh credential record (expires at 700000 > sampleEnv.now). -/
def freshRec : CredentialRecord := ⟨"a", "r1", 700000⟩

/-- A server state in which session "s" is authenticated. -/
def stAuth : ServerState := ⟨[("s", freshRec)], []⟩

/-- Arguments that fail every tool's parser: `fileKey` has the wrong type and
`mermaidCode` is missing. -/
def badRaw : RawArgs := [("fileKey", JValue.jnum 5)]

/-! ## C4 — `getValidAccessToken` -/

/-- C4: for a session holding a Credential Record, `getValidAccessToken` with
`now < expiresAt` returns the stored access token, leaves the Token Store
unchanged and performs 0 refresh calls; with `now >= expiresAt` and a
successful refresh exchange it performs exactly 1 refresh call, overwrites the
record's `accessToken` and `expiresAt` in place, and returns the new token. -/
theorem getValidAccessToken_spec (env : Env) (store : List (String × CredentialRecord))
    (sid : String) (rec : CredentialRecord) (h : alGet store sid = some rec) :
    (env.now < rec.expiresAt →
      getValidAccessToken env store sid = (.ok rec.accessToken, store, 0)) ∧
    (rec.expiresAt ≤ env.now → ∀ tok expiresIn,
      env.refreshResp rec.refreshToken = some (tok, expiresIn) →
      getValidAccessToken env store sid =
        (.ok tok,
         alSet store sid { rec with accessToken := tok, expiresAt := env.now + expiresIn * 1000 },
         1)) := by
  constructor
  · intro hlt
    simp only [getValidAccessToken, h]
    rw [if_neg (by omega)]
  · intro hge tok expiresIn hr
    simp only [getValidAccessToken, h]
    rw [if_pos (by omega), hr]

/-- Witness for C4: both branches at concrete inputs (clock 660000; a record
expiring at 700000 is used as is with no refresh call; a record expired at
600000 is refreshed exactly once and overwritten). -/
theorem getValidAccessToken_spec_witness :
    getValidAccessToken sampleEnv [("s", ⟨"a", "r1", 700000⟩)] "s" =
      (.ok "a", [("s", ⟨"a", "r1", 700000⟩)], 0) ∧
    getValidAccessToken sampleEnv [("s", ⟨"a", "r1", 600000⟩)] "s" =
      (.ok "tokB", [("s", ⟨"tokB", "r1", 4260000⟩)], 1) :=
  ⟨(getValidAccessToken_spec sampleEnv [("s", ⟨"a", "r1", 700000⟩)] "s" ⟨"a", "r1", 700000⟩
      rfl).1 (by decide),
   (getValidAccessToken_spec sampleEnv [("s", ⟨"a", "r1", 600000⟩)] "s" ⟨"a", "r1", 600000⟩
      rfl).2 (by decide) "tokB" 3600 rfl⟩

/-! ## C2 — expired pending state at the OAuth callback -/

/-- C2: the code violates the claim. A Pending Authorization State entry
created at time 0 and presented at time 660000 (11 minutes later, past the
10-minute bound) is looked up *before* the expiry sweep runs, so the callback
succeeds and a Credential Record *is* stored for the originating session,
where the claim requires an `InvalidState` failure and no stored record. -/
theorem handleAuthCallback_acceptsExpiredState :
    (handleAuthCallback sampleEnv (some "c") (some "s") none
        [("s", ⟨"sessA", 0⟩)] []).1 = CallbackResult.success ∧
    (handleAuthCallback sampleEnv (some "c") (some "s") none
        [("s", ⟨"sessA", 0⟩)] []).1 ≠ CallbackResult.invalidState ∧
    alGet (handleAuthCallback sampleEnv (some "c") (some "s") none
        [("s", ⟨"sessA", 0⟩)] []).2.2 "sessA" = some ⟨"tok", "rtok", 4260000⟩ :=
  ⟨rfl, by decide, rfl⟩

/-! ## C3 — `generate_diagram` bypasses the auth gate -/

/-- C3: dispatching `generate_diagram` is exactly the diagram handler with no
auth gate: for every session state (in particular an empty Token Store) the
outcome is never the authorization-link response, never any thrown error (in
particular not `NotAuthenticated`), and the session state is untouched. -/
theorem generateDiagram_bypasses_auth (env : Env) (sid : String) (raw : RawArgs)
    (st : ServerState) :
    callTool env sid "generate_diagram" raw st = generateDiagramTool env raw st ∧
    (callTool env sid "generate_diagram" raw st).outcome.isAuthLink = false ∧
    (callTool env sid "generate_diagram" raw st).outcome.isErrorMsg = false ∧
    (callTool env sid "generate_diagram" raw st).state = st := by
  have hdispatch : callTool env sid "generate_diagram" raw st = generateDiagramTool env raw st := by
    simp [callTool]
  refine ⟨hdispatch, ?_, ?_, ?_⟩ <;> rw [hdispatch] <;>
    cases hp : generateDiagramParser raw with
    | none => simp [generateDiagramTool, hp, CallOutcome.isAuthLink, CallOutcome.isErrorMsg]
    | some args =>
      by_cases hv : diagramTypeIsValid args.mermaidCode <;>
        simp [generateDiagramTool, hp, hv, CallOutcome.isAuthLink, CallOutcome.isErrorMsg]

/-! ## C6 — `generate_diagram` type validation -/

/-- C6: when the first non-blank line of `mermaidCode` contains none of the
recognized diagram-type keywords (case-insensitively), `generate_diagram`
returns a successful non-error response whose text is the fixed
unsupported-type explanation (which names each supported diagram family), and
no state changes; when it does contain one, the response's structured content
carries `mermaidCode` exactly as supplied. -/
theorem generateDiagram_validation (env : Env) (sid : String) (raw : RawArgs)
    (st : ServerState) (args : DiagramArgs) (hp : generateDiagramParser raw = some args) :
    (diagramTypeIsValid args.mermaidCode = false →
      callTool env sid "generate_diagram" raw st =
        ⟨.ok ⟨[.text unsupportedDiagramText], none⟩, st, [], 0⟩) ∧
    (containsSubstr unsupportedDiagramText "flowcharts" = true ∧
     containsSubstr unsupportedDiagramText "sequence diagrams" = true ∧
     containsSubstr unsupportedDiagramText "gantt charts" = true ∧
     containsSubstr unsupportedDiagramText "state diagrams" = true) ∧
    (diagramTypeIsValid args.mermaidCode = true →
      ∃ r : ToolResponse,
        callTool env sid "generate_diagram" raw st = ⟨.ok r, st, [], 0⟩ ∧
        r.structuredContent = some (.diagram args.mermaidCode args.diagramType args.title
          ("https://www.figma.com/file/mock-diagram-" ++ toString env.now))) := by
  have hdispatch : callTool env sid "generate_diagram" raw st = generateDiagramTool env raw st := by
    simp [callTool]
  refine ⟨?_, by decide, ?_⟩
  · intro hv
    rw [hdispatch]
    simp [generateDiagramTool, hp, hv]
  · intro hv
    rw [hdispatch]
    refine ⟨⟨[.text ("Created FigJam diagram" ++
        (match args.title with | some t => if t = "" then "" else ": " ++ t | none => ""))],
      some (.diagram args.mermaidCode args.diagramType args.title
        ("https://www.figma.com/file/mock-diagram-" ++ toString env.now))⟩, ?_, rfl⟩
    simp [generateDiagramTool, hp, hv]

/-- Witness for C6: first line `"classDiagram"` produces the unsupported-type
explanation; first line `"flowchart TD"` echoes the source verbatim in the
structured content. -/
theorem generateDiagram_validation_witness :
    (callTool sampleEnv "s" "generate_diagram"
        [("mermaidCode", JValue.jstr "classDiagram\n A")] stAuth =
      ⟨.ok ⟨[.text unsupportedDiagramText], none⟩, stAuth, [], 0⟩) ∧
    (∃ r : ToolResponse,
      callTool sampleEnv "s" "generate_diagram"
          [("mermaidCode", JValue.jstr "flowchart TD\n A --> B")] stAuth =
        ⟨.ok r, stAuth, [], 0⟩ ∧
      r.structuredContent = some (.diagram "flowchart TD\n A --> B" none none
        ("https://www.figma.com/file/mock-diagram-" ++ toString sampleEnv.now))) :=
  ⟨(generateDiagram_validation sampleEnv "s"
      [("mermaidCode", JValue.jstr "classDiagram\n A")] stAuth
      ⟨"classDiagram\n A", none, none⟩ rfl).1 (by decide),
   (generateDiagram_validation sampleEnv "s"
      [("mermaidCode", JValue.jstr "flowchart TD\n A --> B")] stAuth
      ⟨"flowchart TD\n A --> B", none, none⟩ rfl).2.2 (by decide)⟩

/-! ## C1 — invalid arguments and the auth gate -/

/-- C1, counterexample: an OAuth-gated tool invoked with schema-violating
arguments (`fileKey` is a number) on a session with no Credential Record does
*not* produce the `InvalidArguments` failure — the auth gate runs first and
returns the authorization-link response — and session state *is* modified: a
new Pending Authorization State entry is recorded. -/
theorem invalidArgs_unauth_counterexample :
    (callTool sampleEnv "sess1" "get_screenshot" badRaw ⟨[], []⟩).outcome.isInvalidArguments
        = false ∧
    (callTool sampleEnv "sess1" "get_screenshot" badRaw ⟨[], []⟩).outcome.isAuthLink = true ∧
    (callTool sampleEnv "sess1" "get_screenshot" badRaw ⟨[], []⟩).state.pendingAuthStates =
      [("r", ⟨"sess1", 660000⟩)] ∧
    getScreenshotParser badRaw = none :=
  ⟨rfl, rfl, rfl, rfl⟩

/-- C1, amended: arguments that fail a tool's argument parser yield the
`InvalidArguments` failure with all session state unchanged *provided the auth
gate is passed* — i.e. for `generate_diagram` always, and for the OAuth-gated
tools only when the session holds a Credential Record. An OAuth-gated tool on
a session with no Credential Record instead returns the authorization-link
response without validating arguments, records a new Pending Authorization
State entry, and leaves the Token Store unchanged. -/
theorem invalidArgs_dispatch (env : Env) (sid : String) (raw : RawArgs) (st : ServerState) :
    (∀ rec, alGet st.authSessions sid = some rec → getScreenshotParser raw = none →
      callTool env sid "get_screenshot" raw st = ⟨.invalidArguments, st, [], 0⟩) ∧
    (∀ rec, alGet st.authSessions sid = some rec → getDesignContextParser raw = none →
      callTool env sid "get_design_context" raw st = ⟨.invalidArguments, st, [], 0⟩) ∧
    (∀ rec, alGet st.authSessions sid = some rec → getMetadataParser raw = none →
      callTool env sid "get_metadata" raw st = ⟨.invalidArguments, st, [], 0⟩) ∧
    (generateDiagramParser raw = none →
      callTool env sid "generate_diagram" raw st = ⟨.invalidArguments, st, [], 0⟩) ∧
    (∀ tool, tool ≠ "generate_diagram" → alGet st.authSessions sid = none →
      callTool env sid tool raw st =
        ⟨.authLink (authLinkText env),
         ⟨st.authSessions, alSet st.pendingAuthStates env.randState ⟨sid, env.now⟩⟩, [], 0⟩) := by
  refine ⟨?_, ?_, ?_, ?_, ?_⟩
  · intro rec hrec hp
    simp only [callTool]
    rw [if_neg (by simp [hrec])]
    simp [getScreenshotTool, hp]
  · intro rec hrec hp
    simp only [callTool]
    rw [if_neg (by simp [hrec])]
    simp [getDesignContextTool, hp]
  · intro rec hrec hp
    simp only [callTool]
    rw [if_neg (by simp [hrec])]
    simp [getMetadataTool, hp]
  · intro hp
    have hdispatch : callTool env sid "generate_diagram" raw st = generateDiagramTool env raw st := by
      simp [callTool]
    rw [hdispatch]
    simp [generateDiagramTool, hp]
  · intro tool htool hnone
    simp only [callTool]
    rw [if_pos ⟨htool, by simp [hnone]⟩]

/-- Witness for C1 (amended): `badRaw` fails every parser; on an authenticated
session every tool reports `InvalidArguments` and changes nothing, while
`get_screenshot` on an unauthenticated session yields the auth link and a new
pending entry. -/
theorem invalidArgs_dispatch_witness :
    callTool sampleEnv "s" "get_screenshot" badRaw stAuth = ⟨.invalidArguments, stAuth, [], 0⟩ ∧
    callTool sampleEnv "s" "get_design_context" badRaw stAuth = ⟨.invalidArguments, stAuth, [], 0⟩ ∧
    callTool sampleEnv "s" "get_metadata" badRaw stAuth = ⟨.invalidArguments, stAuth, [], 0⟩ ∧
    callTool sampleEnv "s" "generate_diagram" badRaw stAuth = ⟨.invalidArguments, stAuth, [], 0⟩ ∧
    callTool sampleEnv "sess1" "get_screenshot" badRaw ⟨[], []⟩ =
      ⟨.authLink (authLinkText sampleEnv), ⟨[], [("r", ⟨"sess1", 660000⟩)]⟩, [], 0⟩ :=
  ⟨(invalidArgs_dispatch sampleEnv "s" badRaw stAuth).1 freshRec rfl rfl,
   (invalidArgs_dispatch sampleEnv "s" badRaw stAuth).2.1 freshRec rfl rfl,
   (invalidArgs_dispatch sampleEnv "s" badRaw stAuth).2.2.1 freshRec rfl rfl,
   (invalidArgs_dispatch sampleEnv "s" badRaw stAuth).2.2.2.1 rfl,
   (invalidArgs_dispatch sampleEnv "sess1" badRaw ⟨[], []⟩).2.2.2.2 "get_screenshot"
     (by decide) rfl⟩

/-! ## Helper lemmas about the resolver and the gateway path -/

/-- A successful `parseFigmaUrl` yields non-empty components (the guard at
server.ts:223 requires both to be truthy). -/
theorem parseFigmaUrl_some_ne {u fk nid : String} (h : parseFigmaUrl u = some (fk, nid)) :
    fk ≠ "" ∧ nid ≠ "" := by
  unfold parseFigmaUrl at h
  cases hp : parseURLAux u.data with
  | none => rw [hp] at h; cases h
  | some obj =>
    rw [hp] at h
    simp only at h
    split at h
    · next hcond =>
      obtain ⟨h1, h2⟩ := hcond
      cases h
      exact ⟨h1, h2⟩
    · cases h

/-- A URL whose query has no `node-id` parameter never resolves. -/
theorem parseFigmaUrl_noNodeId {u : String} {obj : URLObj}
    (hparse : parseURLAux u.data = some obj)
    (hno : getParam obj.searchParams "node-id".data = none) :
    parseFigmaUrl u = none := by
  simp [parseFigmaUrl, hparse, hno]

/-- With a fresh Credential Record, `figmaApiRequest` leaves the Token Store
unchanged, performs no refresh, and fetches exactly the given endpoint. -/
theorem figmaApiRequest_fresh (env : Env) (store : List (String × CredentialRecord))
    (sid endpoint : String) (rec : CredentialRecord)
    (hrec : alGet store sid = some rec) (hfresh : env.now < rec.expiresAt) :
    figmaApiRequest env store sid endpoint =
      match env.api endpoint with
      | none => (.error ("Figma API error: " ++ endpoint), store, [endpoint], 0)
      | some r => (.ok r, store, [endpoint], 0) := by
  simp only [figmaApiRequest, getValidAccessToken, hrec]
  rw [if_neg (by omega)]

/-! ## C10 — `get_metadata` with a url lacking `node-id` -/

/-- C10: on an authenticated session, `get_metadata` whose only argument is a
URL that parses and contains a file-key path segment but no `node-id` query
parameter fails with the missing-fileKey error and touches nothing: the
resolver returns "no match" unless both identifiers are present, and its
result is only applied when it matches. -/
theorem getMetadata_urlWithoutNodeId (env : Env) (sid : String) (st : ServerState)
    (rec : CredentialRecord) (u : String) (obj : URLObj)
    (hrec : alGet st.authSessions sid = some rec)
    (hparse : parseURLAux u.data = some obj)
    (hfk : scanMatch obj.pathname ≠ [])
    (hno : getParam obj.searchParams "node-id".data = none) :
    callTool env sid "get_metadata" [("url", JValue.jstr u)] st =
      ⟨.errorMsg "fileKey is required. Provide it directly or via a Figma URL.", st, [], 0⟩ := by
  have hu : u ≠ "" := by
    intro h
    rw [h] at hparse
    simp [parseURLAux, splitFirstChar] at hparse
  have hpf : parseFigmaUrl u = none := parseFigmaUrl_noNodeId hparse hno
  simp only [callTool]
  rw [if_neg (by simp [hrec])]
  simp [getMetadataTool, getMetadataParser, parseOptString, alGet, hpf, hu]

/-- Witness for C10: a design URL with a file key but no query at all. -/
theorem getMetadata_urlWithoutNodeId_witness :
    callTool sampleEnv "s" "get_metadata"
        [("url", JValue.jstr "https://www.figma.com/design/abc/File")] stAuth =
      ⟨.errorMsg "fileKey is required. Provide it directly or via a Figma URL.",
        stAuth, [], 0⟩ :=
  getMetadata_urlWithoutNodeId sampleEnv "s" stAuth freshRec
    "https://www.figma.com/design/abc/File"
    ⟨"/design/abc/File".data, []⟩ rfl (by decide) (by decide) rfl

/-! ## C7 — `get_screenshot` gateway endpoint and echo -/

/-- C7: on a session with a valid (unexpired) Credential Record, with resolved
`fileKey` and `nodeId` and scale `s` in [1,4] (or absent, defaulting to 2),
`get_screenshot` fetches exactly
`/images/{fileKey}?ids={nodeId}&scale={s}&format=png` and its structured
content echoes that `fileKey`, `nodeId` and `scale` plus the image URL the
Gateway returned; the session state is unchanged. -/
theorem getScreenshot_gateway (env : Env) (sid : String) (st : ServerState)
    (rec : CredentialRecord) (fk nid : String) (s : Nat) (resp : ApiResp) (u : String)
    (hrec : alGet st.authSessions sid = some rec) (hfresh : env.now < rec.expiresAt)
    (hfk : fk ≠ "") (hnid : nid ≠ "") :
    (1 ≤ s → s ≤ 4 →
      env.api ("/images/" ++ fk ++ "?ids=" ++ nid ++ "&scale=" ++ toString s ++ "&format=png")
        = some resp →
      alGet resp.images nid = some u →
      callTool env sid "get_screenshot"
          [("fileKey", JValue.jstr fk), ("nodeId", JValue.jstr nid), ("scale", JValue.jnum s)] st =
        ⟨.ok ⟨[.image (some u) "image/png",
               .text ("Screenshot generated for node " ++ nid ++ " in file " ++ fk)],
              some (.screenshot fk nid (some u) s)⟩,
         st, ["/images/" ++ fk ++ "?ids=" ++ nid ++ "&scale=" ++ toString s ++ "&format=png"],
         0⟩) ∧
    (env.api ("/images/" ++ fk ++ "?ids=" ++ nid ++ "&scale=" ++ toString 2 ++ "&format=png")
        = some resp →
      alGet resp.images nid = some u →
      callTool env sid "get_screenshot"
          [("fileKey", JValue.jstr fk), ("nodeId", JValue.jstr nid)] st =
        ⟨.ok ⟨[.image (some u) "image/png",
               .text ("Screenshot generated for node " ++ nid ++ " in file " ++ fk)],
              some (.screenshot fk nid (some u) 2)⟩,
         st, ["/images/" ++ fk ++ "?ids=" ++ nid ++ "&scale=" ++ toString 2 ++ "&format=png"],
         0⟩) := by
  constructor
  · intro hs1 hs4 hapi himg
    have hs0 : (s == 0) = false := by simp; omega
    have himg2 : Option.map (fun x => x.2) (List.find? (fun p => p.1 == nid) resp.images)
        = some u := himg
    simp only [callTool]
    rw [if_neg (by simp [hrec])]
    simp only [getScreenshotTool, getScreenshotParser, parseOptString, alGet]
    simp only [List.find?]
    simp [hs1, hs4, hfk, hnid, hs0,
      figmaApiRequest_fresh env st.authSessions sid _ rec hrec hfresh, hapi, himg2]
  · intro hapi himg
    have himg2 : Option.map (fun x => x.2) (List.find? (fun p => p.1 == nid) resp.images)
        = some u := himg
    simp only [callTool]
    rw [if_neg (by simp [hrec])]
    simp only [getScreenshotTool, getScreenshotParser, parseOptString, alGet]
    simp only [List.find?]
    simp [hfk, hnid,
      figmaApiRequest_fresh env st.authSessions sid _ rec hrec hfresh, hapi, himg2]

/-- The Gateway response used by the C7 witness. -/
def screenshotResp : ApiResp := { images := [("1:2", "https://img.example/a.png")] }

/-- The world used by the C7 witness: only the expected endpoint answers. -/
def screenshotEnv : Env :=
  { sampleEnv with
    api := fun e =>
      if e == "/images/pqrs?ids=1:2&scale=2&format=png" then some screenshotResp else none }

/-- Witness for C7: fileKey "pqrs", nodeId "1:2", scale 2 fetches exactly
`/images/pqrs?ids=1:2&scale=2&format=png` and echoes all identifiers plus the
returned image URL. -/
theorem getScreenshot_gateway_witness :
    callTool screenshotEnv "s" "get_screenshot"
        [("fileKey", JValue.jstr "pqrs"), ("nodeId", JValue.jstr "1:2"),
         ("scale", JValue.jnum 2)] stAuth =
      ⟨.ok ⟨[.image (some "https://img.example/a.png") "image/png",
             .text "Screenshot generated for node 1:2 in file pqrs"],
            some (.screenshot "pqrs" "1:2" (some "https://img.example/a.png") 2)⟩,
       stAuth, ["/images/pqrs?ids=1:2&scale=2&format=png"], 0⟩ :=
  (getScreenshot_gateway screenshotEnv "s" stAuth freshRec "pqrs" "1:2" 2 screenshotResp
    "https://img.example/a.png" rfl (by decide) (by decide) (by decide)).1
    (by decide) (by decide) rfl rfl

/-! ## C9 — a supplied URL overrides explicit identifiers -/

/-- C9: for `get_screenshot`, `get_design_context` and `get_metadata` invoked
with both a `url` and explicit non-empty `fileKey`/`nodeId` arguments on an
authenticated session with a fresh token: when the URL resolves, the resolved
pair determines the dispatched Gateway endpoint; when it does not resolve, the
explicit arguments do. -/
theorem url_overrides_explicit (env : Env) (sid : String) (st : ServerState)
    (rec : CredentialRecord) (u fk0 nid0 : String)
    (hrec : alGet st.authSessions sid = some rec) (hfresh : env.now < rec.expiresAt)
    (hfk0 : fk0 ≠ "") (hnid0 : nid0 ≠ "") :
    (∀ fk nid, parseFigmaUrl u = some (fk, nid) →
      (callTool env sid "get_screenshot"
        [("fileKey", JValue.jstr fk0), ("nodeId", JValue.jstr nid0), ("url", JValue.jstr u)]
        st).apiCalls = ["/images/" ++ fk ++ "?ids=" ++ nid ++ "&scale=" ++ toString 2 ++ "&format=png"] ∧
      (callTool env sid "get_design_context"
        [("fileKey", JValue.jstr fk0), ("nodeId", JValue.jstr nid0), ("url", JValue.jstr u)]
        st).apiCalls = ["/files/" ++ fk ++ "/nodes?ids=" ++ nid] ∧
      (callTool env sid "get_metadata"
        [("fileKey", JValue.jstr fk0), ("nodeId", JValue.jstr nid0), ("url", JValue.jstr u)]
        st).apiCalls = ["/files/" ++ fk ++ "/nodes?ids=" ++ nid]) ∧
    (parseFigmaUrl u = none →
      (callTool env sid "get_screenshot"
        [("fileKey", JValue.jstr fk0), ("nodeId", JValue.jstr nid0), ("url", JValue.jstr u)]
        st).apiCalls = ["/images/" ++ fk0 ++ "?ids=" ++ nid0 ++ "&scale=" ++ toString 2 ++ "&format=png"] ∧
      (callTool env sid "get_design_context"
        [("fileKey", JValue.jstr fk0), ("nodeId", JValue.jstr nid0), ("url", JValue.jstr u)]
        st).apiCalls = ["/files/" ++ fk0 ++ "/nodes?ids=" ++ nid0] ∧
      (callTool env sid "get_metadata"
        [("fileKey", JValue.jstr fk0), ("nodeId", JValue.jstr nid0), ("url", JValue.jstr u)]
        st).apiCalls = ["/files/" ++ fk0 ++ "/nodes?ids=" ++ nid0]) := by
  have hfr := fun endpoint =>
    figmaApiRequest_fresh env st.authSessions sid endpoint rec hrec hfresh
  constructor
  · intro fk nid hpf
    have hu : u ≠ "" := by
      intro h
      rw [h] at hpf
      cases hpf
    obtain ⟨hfk, hnid⟩ := parseFigmaUrl_some_ne hpf
    refine ⟨?_, ?_, ?_⟩
    · simp only [callTool]
      rw [if_neg (by simp [hrec])]
      simp [getScreenshotTool, getScreenshotParser, parseOptString, alGet, List.find?,
        hu, hpf, hfk, hnid, hfr]
      cases env.api ("/images/" ++ fk ++ "?ids=" ++ nid ++ "&scale=" ++ toString 2 ++ "&format=png") <;>
        simp
    · simp only [callTool]
      rw [if_neg (by simp [hrec])]
      simp [getDesignContextTool, getDesignContextParser, parseOptString, alGet, List.find?,
        hu, hpf, hfk, hnid, hfr]
      cases env.api ("/files/" ++ fk ++ "/nodes?ids=" ++ nid) <;> simp
    · simp only [callTool]
      rw [if_neg (by simp [hrec])]
      simp [getMetadataTool, getMetadataParser, parseOptString, alGet, List.find?,
        hu, hpf, hfk, hnid, hfr]
      cases env.api ("/files/" ++ fk ++ "/nodes?ids=" ++ nid) <;> simp
      all_goals split <;> simp
  · intro hpf
    by_cases hu : u = ""
    · refine ⟨?_, ?_, ?_⟩
      · simp only [callTool]
        rw [if_neg (by simp [hrec])]
        simp [getScreenshotTool, getScreenshotParser, parseOptString, alGet, List.find?,
          hu, hfk0, hnid0, hfr]
        cases env.api ("/images/" ++ fk0 ++ "?ids=" ++ nid0 ++ "&scale=" ++ toString 2 ++ "&format=png") <;>
          simp
      · simp only [callTool]
        rw [if_neg (by simp [hrec])]
        simp [getDesignContextTool, getDesignContextParser, parseOptString, alGet, List.find?,
          hu, hfk0, hnid0, hfr]
        cases env.api ("/files/" ++ fk0 ++ "/nodes?ids=" ++ nid0) <;> simp
      · simp only [callTool]
        rw [if_neg (by simp [hrec])]
        simp [getMetadataTool, getMetadataParser, parseOptString, alGet, List.find?,
          hu, hfk0, hnid0, hfr]
        cases env.api ("/files/" ++ fk0 ++ "/nodes?ids=" ++ nid0) <;> simp
        all_goals split <;> simp
    · refine ⟨?_, ?_, ?_⟩
      · simp only [callTool]
        rw [if_neg (by simp [hrec])]
        simp [getScreenshotTool, getScreenshotParser, parseOptString, alGet, List.find?,
          hu, hpf, hfk0, hnid0, hfr]
        cases env.api ("/images/" ++ fk0 ++ "?ids=" ++ nid0 ++ "&scale=" ++ toString 2 ++ "&format=png") <;>
          simp
      · simp only [callTool]
        rw [if_neg (by simp [hrec])]
        simp [getDesignContextTool, getDesignContextParser, parseOptString, alGet, List.find?,
          hu, hpf, hfk0, hnid0, hfr]
        cases env.api ("/files/" ++ fk0 ++ "/nodes?ids=" ++ nid0) <;> simp
      · simp only [callTool]
        rw [if_neg (by simp [hrec])]
        simp [getMetadataTool, getMetadataParser, parseOptString, alGet, List.find?,
          hu, hpf, hfk0, hnid0, hfr]
        cases env.api ("/files/" ++ fk0 ++ "/nodes?ids=" ++ nid0) <;> simp
        all_goals split <;> simp

/-- Witness for C9: the URL `.../design/abc/My?node-id=3-4` overrides the
explicit pair ("x", "y") in all three tools' endpoints; a URL with no
file-key segment or node-id leaves ("x", "y") in effect. -/
theorem url_overrides_explicit_witness :
    (callTool sampleEnv "s" "get_screenshot"
      [("fileKey", JValue.jstr "x"), ("nodeId", JValue.jstr "y"),
       ("url", JValue.jstr "https://www.figma.com/design/abc/My?node-id=3-4")]
      stAuth).apiCalls = ["/images/abc?ids=3:4&scale=2&format=png"] ∧
    (callTool sampleEnv "s" "get_metadata"
      [("fileKey", JValue.jstr "x"), ("nodeId", JValue.jstr "y"),
       ("url", JValue.jstr "https://www.figma.com/design/abc/My?node-id=3-4")]
      stAuth).apiCalls = ["/files/abc/nodes?ids=3:4"] ∧
    (callTool sampleEnv "s" "get_screenshot"
      [("fileKey", JValue.jstr "x"), ("nodeId", JValue.jstr "y"),
       ("url", JValue.jstr "https://example.com/nothing")]
      stAuth).apiCalls = ["/images/x?ids=y&scale=2&format=png"] ∧
    (callTool sampleEnv "s" "get_metadata"
      [("fileKey", JValue.jstr "x"), ("nodeId", JValue.jstr "y"),
       ("url", JValue.jstr "https://example.com/nothing")]
      stAuth).apiCalls = ["/files/x/nodes?ids=y"] :=
  ⟨((url_overrides_explicit sampleEnv "s" stAuth freshRec
      "https://www.figma.com/design/abc/My?node-id=3-4" "x" "y" rfl (by decide)
      (by decide) (by decide)).1 "abc" "3:4" (by decide)).1,
   ((url_overrides_explicit sampleEnv "s" stAuth freshRec
      "https://www.figma.com/design/abc/My?node-id=3-4" "x" "y" rfl (by decide)
      (by decide) (by decide)).1 "abc" "3:4" (by decide)).2.2,
   ((url_overrides_explicit sampleEnv "s" stAuth freshRec
      "https://example.com/nothing" "x" "y" rfl (by decide)
      (by decide) (by decide)).2 (by decide)).1,
   ((url_overrides_explicit sampleEnv "s" stAuth freshRec
      "https://example.com/nothing" "x" "y" rfl (by decide)
      (by decide) (by decide)).2 (by decide)).2.2⟩

/-! ## C8 — `nodeToXml` refinement -/

/-- Structural induction for the nested `FNode` tree. -/
theorem FNode.strongInd (P : FNode → Prop)
    (h : ∀ i t nm bbox cs, (∀ c ∈ cs, P c) → P (.mk i t nm bbox cs)) :
    ∀ n, P n
  | .mk i t nm bbox cs => h i t nm bbox cs fun c hc => FNode.strongInd P h c
termination_by n => sizeOf n
decreasing_by
  have := List.sizeOf_lt_of_mem hc
  simp only [FNode.mk.sizeOf_spec]
  omega

/-- Concatenation of a list of fragments in order. -/
def concatAll : List String → String
  | [] => ""
  | s :: rest => s ++ concatAll rest

/-- Written from the claim: the opening tag carries the `id`, `type` and
`name` attributes, and the `x`/`y`/`width`/`height` attributes exactly when
the node has a bounding box. -/
def openTagOf (n : FNode) : String :=
  "<node id=\"" ++ n.id ++ "\" type=\"" ++ n.type ++ "\" name=\"" ++ n.name ++ "\"" ++
    (match n.bbox with
     | some b =>
       " x=\"" ++ toString b.x ++ "\" y=\"" ++ toString b.y ++
         "\" width=\"" ++ toString b.width ++ "\" height=\"" ++ toString b.height ++ "\""
     | none => "")

/-- Written from the claim: a childless node becomes a self-closing element; a
node with children becomes an open/close pair containing its children
serialized in document order at indentation depth one greater. -/
def nodeToXmlSpec : FNode → Nat → String
  | .mk i t nm bbox cs, depth =>
    if cs.isEmpty then
      repeatString "  " depth ++ openTagOf (.mk i t nm bbox cs) ++ " />\n"
    else
      repeatString "  " depth ++ openTagOf (.mk i t nm bbox cs) ++ ">\n" ++
        concatAll (cs.attach.map fun c => nodeToXmlSpec c.1 (depth + 1)) ++
        repeatString "  " depth ++ "</node>\n"
termination_by n _ => sizeOf n
decreasing_by
  have := List.sizeOf_lt_of_mem c.2
  simp only [FNode.mk.sizeOf_spec]
  omega

/-- The children loop agrees with concatenating the spec serialization of each
child in document order. -/
theorem nodesToXml_eq_concat (depth : Nat) : ∀ (cs : List FNode),
    (∀ c ∈ cs, ∀ d, nodeToXml c d = nodeToXmlSpec c d) →
    nodesToXml cs depth = concatAll (cs.attach.map fun c => nodeToXmlSpec c.1 depth)
  | [], _ => rfl
  | c :: rest, h => by
    have hrec := nodesToXml_eq_concat depth rest fun c' hc' d => h c' (by simp [hc']) d
    show nodeToXml c depth ++ nodesToXml rest depth = _
    rw [h c (by simp) depth, hrec, List.attach_cons, List.map_cons, List.map_map]
    rfl

/-- C8: the serializer is exactly the claim's description — each node is one
`<node>` element whose open tag is `openTagOf` (id/type/name attributes, and
bounding-box attributes exactly when a box is present), childless nodes are
self-closing, children are serialized in document order at depth + 1 inside an
open/close pair, and the whole result is wrapped in a `<figma>` root preceded
by the XML declaration. -/
theorem nodeToXml_refines :
    (∀ (n : FNode) (depth : Nat), nodeToXml n depth = nodeToXmlSpec n depth) ∧
    (∀ root : FNode, xmlMetadataOf root =
      "<?xml version=\"1.0\" encoding=\"UTF-8\"?>\n" ++ "<figma>\n" ++
        nodeToXmlSpec root 1 ++ "</figma>") := by
  have main : ∀ n depth, nodeToXml n depth = nodeToXmlSpec n depth := by
    refine FNode.strongInd _ ?_
    intro i t nm bbox cs ih depth
    cases cs with
    | nil =>
      cases bbox <;>
        · apply String.ext
          simp [nodeToXml, nodeToXmlSpec, openTagOf, FNode.id, FNode.type, FNode.name,
            FNode.bbox, String.data_append, show ("" : String).data = [] from rfl]
    | cons c rest =>
      have hkids := nodesToXml_eq_concat (depth + 1) (c :: rest) ih
      simp only [nodesToXml] at hkids
      cases bbox <;>
        · simp only [nodeToXml, nodeToXmlSpec, openTagOf, FNode.id, FNode.type, FNode.name,
            FNode.bbox, List.isEmpty_cons]
          rw [if_neg (by simp), ← hkids]
          apply String.ext
          simp [String.data_append, show ("" : String).data = [] from rfl]
  refine ⟨main, ?_⟩
  intro root
  rw [xmlMetadataOf, main]
  rw [show ("<?xml version=\"1.0\" encoding=\"UTF-8\"?>\n" ++ "<figma>\n" : String) =
    "<?xml version=\"1.0\" encoding=\"UTF-8\"?>\n<figma>\n" from rfl]

/-! ## C5 — the URL Resolver, general lemmas -/

theorem splitFirstChar_append (c : Char) (ys : List Char) :
    ∀ (xs : List Char), (∀ x ∈ xs, ¬(x = c)) →
      splitFirstChar (xs ++ c :: ys) c = some (xs, ys)
  | [], _ => by simp [splitFirstChar]
  | x :: xs, h => by
    have hx : (x == c) = false := beq_eq_false_iff_ne.mpr (h x (by simp))
    have ih := splitFirstChar_append c ys xs fun y hy => h y (by simp [hy])
    simp only [List.cons_append, splitFirstChar, hx, Bool.false_eq_true, if_false]
    rw [show xs.append (c :: ys) = xs ++ c :: ys from rfl, ih]

theorem takeUntilChar_of_no (c : Char) :
    ∀ (l : List Char), (∀ x ∈ l, ¬(x = c)) → takeUntilChar l c = l
  | [], _ => rfl
  | x :: xs, h => by
    have hx : (x == c) = false := beq_eq_false_iff_ne.mpr (h x (by simp))
    simp only [takeUntilChar, hx, Bool.false_eq_true, if_false]
    rw [takeUntilChar_of_no c xs fun y hy => h y (by simp [hy])]

theorem takeWhile_split (p : Char → Bool) (y : Char) (ys : List Char) (hy : p y = false) :
    ∀ (xs : List Char), (∀ x ∈ xs, p x = true) →
      (xs ++ y :: ys).takeWhile p = xs ∧ (xs ++ y :: ys).dropWhile p = y :: ys
  | [], _ => by simp [List.takeWhile, List.dropWhile, hy]
  | x :: xs, h => by
    have hx : p x = true := h x (by simp)
    have ih := takeWhile_split p y ys hy xs fun z hz => h z (by simp [hz])
    simp only [List.cons_append, List.takeWhile_cons, List.dropWhile_cons, hx, if_true]
    exact ⟨by rw [ih.1], by rw [ih.2]⟩

theorem splitOnChar_no (c : Char) :
    ∀ (l : List Char), (∀ x ∈ l, ¬(x = c)) → splitOnChar l c = [l]
  | [], _ => rfl
  | x :: xs, h => by
    have hx : (x == c) = false := beq_eq_false_iff_ne.mpr (h x (by simp))
    simp only [splitOnChar, hx, Bool.false_eq_true, if_false]
    rw [splitOnChar_no c xs fun y hy => h y (by simp [hy])]

theorem isPrefixOf_self_append :
    ∀ (l t : List Char), l.isPrefixOf (l ++ t) = true
  | [], [] => rfl
  | [], _ :: _ => rfl
  | x :: xs, t => by
    show (x :: xs).isPrefixOf (x :: (xs ++ t)) = true
    rw [show (x :: xs).isPrefixOf (x :: (xs ++ t)) = ((x == x) && xs.isPrefixOf (xs ++ t))
      from rfl]
    simp [isPrefixOf_self_append xs t]

/-- The regex matches at a position shaped `/{kw}/{fk}/...` and captures the
non-empty slash-free segment `fk`. -/
theorem segAfter_hit (kw fk rest : List Char) (hfk : fk ≠ [])
    (hfkc : ∀ x ∈ fk, ¬(x = '/')) :
    segAfter kw ('/' :: (kw ++ '/' :: (fk ++ '/' :: rest))) = some fk := by
  have hshape : ('/' :: (kw ++ '/' :: (fk ++ '/' :: rest))) =
      ('/' :: kw ++ ['/']) ++ (fk ++ '/' :: rest) := by simp
  have hpre : ('/' :: kw ++ ['/']).isPrefixOf ('/' :: (kw ++ '/' :: (fk ++ '/' :: rest))) = true := by
    rw [hshape]
    exact isPrefixOf_self_append _ _
  have hlen : kw.length + 2 = ('/' :: kw ++ ['/']).length := by simp
  have htw := takeWhile_split (fun c => !(c == '/')) '/' rest (by simp) fk
    fun x hx => by simp [beq_eq_false_iff_ne.mpr (hfkc x hx)]
  simp only [segAfter, hpre, if_true]
  rw [hshape, hlen, List.drop_left, htw.1]
  rw [if_neg (by simp [hfk])]

/-- First-position match for `/design/{fk}/...` pathnames. -/
theorem scanMatch_design (fk name : List Char) (hfk : fk ≠ [])
    (hfkc : ∀ x ∈ fk, ¬(x = '/')) :
    scanMatch ('/' :: ("design".data ++ '/' :: (fk ++ '/' :: name))) = fk := by
  rw [show scanMatch ('/' :: ("design".data ++ '/' :: (fk ++ '/' :: name))) =
      match segAfter "design".data ('/' :: ("design".data ++ '/' :: (fk ++ '/' :: name))) with
      | some seg => seg
      | none =>
        match segAfter "file".data ('/' :: ("design".data ++ '/' :: (fk ++ '/' :: name))) with
        | some seg => seg
        | none => scanMatch ("design".data ++ '/' :: (fk ++ '/' :: name)) from rfl]
  rw [segAfter_hit "design".data fk name hfk hfkc]

/-- First-position match for `/file/{fk}/...` pathnames (the `design`
alternative fails there first). -/
theorem scanMatch_file (fk name : List Char) (hfk : fk ≠ [])
    (hfkc : ∀ x ∈ fk, ¬(x = '/')) :
    scanMatch ('/' :: ("file".data ++ '/' :: (fk ++ '/' :: name))) = fk := by
  rw [show scanMatch ('/' :: ("file".data ++ '/' :: (fk ++ '/' :: name))) =
      match segAfter "design".data ('/' :: ("file".data ++ '/' :: (fk ++ '/' :: name))) with
      | some seg => seg
      | none =>
        match segAfter "file".data ('/' :: ("file".data ++ '/' :: (fk ++ '/' :: name))) with
        | some seg => seg
        | none => scanMatch ("file".data ++ '/' :: (fk ++ '/' :: name)) from rfl]
  have hmiss : segAfter "design".data ('/' :: ("file".data ++ '/' :: (fk ++ '/' :: name))) =
      none := by
    rw [show "design".data = ['d', 'e', 's', 'i', 'g', 'n'] from rfl,
      show "file".data = ['f', 'i', 'l', 'e'] from rfl]
    simp [segAfter, List.isPrefixOf]
  rw [hmiss, segAfter_hit "file".data fk name hfk hfkc]

/-- Query parsing of `node-id={v}` (no `&` inside the value). -/
theorem parseQuery_nodeId (v : List Char) (hv : ∀ c ∈ v, ¬(c = '&')) :
    parseQuery ("node-id=".data ++ v) = [("node-id".data, v)] := by
  rw [show "node-id=".data = ['n', 'o', 'd', 'e', '-', 'i', 'd', '='] from rfl,
    show "node-id".data = ['n', 'o', 'd', 'e', '-', 'i', 'd'] from rfl]
  have hall : ∀ x ∈ ['n', 'o', 'd', 'e', '-', 'i', 'd', '='] ++ v, ¬(x = '&') := by
    intro x hx
    rcases List.mem_append.mp hx with hx | hx
    · have hlit : ∀ y ∈ ['n', 'o', 'd', 'e', '-', 'i', 'd', '='], ¬(y = '&') := by decide
      exact hlit x hx
    · exact hv x hx
  have hsplit : splitFirstChar (['n', 'o', 'd', 'e', '-', 'i', 'd', '='] ++ v) '='
      = some (['n', 'o', 'd', 'e', '-', 'i', 'd'], v) := by
    rw [show (['n', 'o', 'd', 'e', '-', 'i', 'd', '='] ++ v : List Char) =
      ['n', 'o', 'd', 'e', '-', 'i', 'd'] ++ '=' :: v by simp]
    exact splitFirstChar_append '=' v ['n', 'o', 'd', 'e', '-', 'i', 'd'] (by decide)
  have hsplit2 : splitFirstChar ('n' :: 'o' :: 'd' :: 'e' :: '-' :: 'i' :: 'd' :: '=' :: v) '='
      = some (['n', 'o', 'd', 'e', '-', 'i', 'd'], v) := hsplit
  unfold parseQuery
  rw [splitOnChar_no '&' _ hall]
  simp [hsplit2]

/-- The URL model on a canonical `scheme://host/path?query` input. -/
theorem parseURLAux_canonical (scheme host path query : List Char)
    (hs : scheme ≠ []) (hsAll : ∀ c ∈ scheme, isSchemeChar c = true)
    (hh : host ≠ []) (hhc : ∀ c ∈ host, ¬(c = '/') ∧ ¬(c = '?') ∧ ¬(c = '#'))
    (hp : ∀ c ∈ path, ¬(c = '?') ∧ ¬(c = '#'))
    (hq : ∀ c ∈ query, ¬(c = '#')) :
    parseURLAux (scheme ++ ':' :: '/' :: '/' :: (host ++ '/' :: (path ++ '?' :: query))) =
      some ⟨'/' :: path, parseQuery query⟩ := by
  have hnc : ∀ x ∈ scheme, ¬(x = ':') := by
    intro x hx h
    have hch := hsAll x hx
    rw [h] at hch
    exact absurd hch (by decide)
  have hcond : (!scheme.isEmpty && scheme.all isSchemeChar) = true := by
    cases scheme with
    | nil => exact absurd rfl hs
    | cons a as =>
      simp only [List.isEmpty_cons, Bool.not_false, Bool.true_and, List.all_eq_true]
      exact fun c hc => hsAll c hc
  have huntil : takeUntilChar (host ++ '/' :: (path ++ '?' :: query)) '#' =
      host ++ '/' :: (path ++ '?' :: query) := by
    apply takeUntilChar_of_no
    intro x hx
    rcases List.mem_append.mp hx with hx | hx
    · exact (hhc x hx).2.2
    · rcases List.mem_cons.mp hx with hx | hx
      · simp [hx]
      · rcases List.mem_append.mp hx with hx | hx
        · exact (hp x hx).2
        · rcases List.mem_cons.mp hx with hx | hx
          · simp [hx]
          · exact hq x hx
  have htw := takeWhile_split (fun c => !(c == '/' || c == '?')) '/' (path ++ '?' :: query)
    (by simp) host
    fun x hx => by
      simp [beq_eq_false_iff_ne.mpr (hhc x hx).1, beq_eq_false_iff_ne.mpr (hhc x hx).2.1]
  have hsp : splitFirstChar ('/' :: (path ++ '?' :: query)) '?' = some ('/' :: path, query) := by
    rw [show '/' :: (path ++ '?' :: query) = ('/' :: path) ++ '?' :: query by simp]
    apply splitFirstChar_append
    intro x hx
    rcases List.mem_cons.mp hx with hx | hx
    · simp [hx]
    · exact (hp x hx).1
  have hhe : host.isEmpty = false := by
    cases host with
    | nil => exact absurd rfl hh
    | cons a as => rfl
  have hpq : splitPathQuery ('/' :: (path ++ '?' :: query)) = ('/' :: path, query) := by
    rw [show splitPathQuery ('/' :: (path ++ '?' :: query)) =
      (match splitFirstChar ('/' :: (path ++ '?' :: query)) '?' with
       | none => ('/' :: (path ++ '?' :: query), [])
       | some (p, q) => (p, q)) from rfl, hsp]
  unfold parseURLAux
  rw [splitFirstChar_append ':' _ scheme hnc]
  simp only [hcond, if_true, huntil, htw.1, htw.2, hpq, hhe, Bool.false_eq_true, if_false]

/-- The resolver on a parsed URL whose path regex matches non-trivially and
whose `node-id` parameter is present and non-empty. -/
theorem parseFigmaUrl_core (url : String) (obj : URLObj) (v : List Char)
    (hparse : parseURLAux url.data = some obj)
    (hscan : scanMatch obj.pathname ≠ [])
    (hget : getParam obj.searchParams "node-id".data = some v)
    (hv : dashToColon v ≠ []) :
    parseFigmaUrl url =
      some (String.mk (scanMatch obj.pathname), String.mk (dashToColon v)) := by
  unfold parseFigmaUrl
  rw [hparse]
  simp only [hget]
  rw [if_pos]
  constructor
  · intro h
    exact hscan (congrArg String.data h)
  · intro h
    exact hv (congrArg String.data h)

theorem dashToColon_append_dash (x y : List Char) :
    dashToColon (x ++ '-' :: y) = dashToColon x ++ ':' :: dashToColon y := by
  simp [dashToColon]

theorem dashToColon_of_no_dash :
    ∀ (l : List Char), (∀ c ∈ l, ¬(c = '-')) → dashToColon l = l
  | [], _ => rfl
  | x :: xs, h => by
    have hx : (x == '-') = false := beq_eq_false_iff_ne.mpr (h x (by simp))
    simp only [dashToColon, List.map_cons, hx, Bool.false_eq_true, if_false]
    have ih := dashToColon_of_no_dash xs fun y hy => h y (by simp [hy])
    simp only [dashToColon] at ih
    rw [ih]

theorem dashToColon_idem : ∀ (l : List Char), dashToColon (dashToColon l) = dashToColon l
  | [] => rfl
  | x :: xs => by
    have ih := dashToColon_idem xs
    simp only [dashToColon, List.map_cons] at ih ⊢
    rw [ih]
    by_cases hx : x = '-'
    · subst hx
      rfl
    · have hb : (x == '-') = false := beq_eq_false_iff_ne.mpr hx
      simp [hb]

/-- C5: the URL Resolver contract. (i) A canonical design-tool URL
`scheme://host/design/{fk}/{name}?node-id={a}-{b}` (and likewise with `/file/`)
resolves to that file key together with the node id with every `-` replaced by
`:`; (ii) a node id already in `:` form (no dashes) is returned unchanged by the
normalization, which is idempotent; (iii) a URL that fails to parse, has no
matching file-key segment, or has no `node-id` parameter yields "no match"
(`none`), not an error. -/
theorem parseFigmaUrl_spec :
    (∀ scheme host fk name a b : String,
      scheme.data ≠ [] → (∀ c ∈ scheme.data, isSchemeChar c = true) →
      host.data ≠ [] → (∀ c ∈ host.data, ¬(c = '/') ∧ ¬(c = '?') ∧ ¬(c = '#')) →
      fk.data ≠ [] → (∀ c ∈ fk.data, ¬(c = '/') ∧ ¬(c = '?') ∧ ¬(c = '#')) →
      (∀ c ∈ name.data, ¬(c = '?') ∧ ¬(c = '#')) →
      (∀ c ∈ a.data, ¬(c = '&') ∧ ¬(c = '#')) →
      (∀ c ∈ b.data, ¬(c = '&') ∧ ¬(c = '#')) →
      parseFigmaUrl (scheme ++ "://" ++ host ++ "/design/" ++ fk ++ "/" ++ name ++
          "?node-id=" ++ a ++ "-" ++ b) =
        some (fk, dashToColonS a ++ ":" ++ dashToColonS b) ∧
      parseFigmaUrl (scheme ++ "://" ++ host ++ "/file/" ++ fk ++ "/" ++ name ++
          "?node-id=" ++ a ++ "-" ++ b) =
        some (fk, dashToColonS a ++ ":" ++ dashToColonS b)) ∧
    (∀ s : String, (∀ c ∈ s.data, ¬(c = '-')) → dashToColonS s = s) ∧
    (∀ s : String, dashToColonS (dashToColonS s) = dashToColonS s) ∧
    (∀ u : String, parseURLAux u.data = none → parseFigmaUrl u = none) ∧
    (∀ (u : String) (obj : URLObj), parseURLAux u.data = some obj →
      scanMatch obj.pathname = [] → parseFigmaUrl u = none) ∧
    (∀ (u : String) (obj : URLObj), parseURLAux u.data = some obj →
      getParam obj.searchParams "node-id".data = none → parseFigmaUrl u = none) := by
  refine ⟨?_, ?_, ?_, ?_, ?_, ?_⟩
  · intro scheme host fk name a b hs hsAll hh hhc hfkne hfkc hname ha hb
    have hvAmp : ∀ c ∈ a.data ++ '-' :: b.data, ¬(c = '&') := by
      intro c hc
      rcases List.mem_append.mp hc with hc | hc
      · exact (ha c hc).1
      · rcases List.mem_cons.mp hc with hc | hc
        · simp [hc]
        · exact (hb c hc).1
    have hquery : ∀ c ∈ "node-id=".data ++ (a.data ++ '-' :: b.data), ¬(c = '#') := by
      intro c hc
      rcases List.mem_append.mp hc with hc | hc
      · have hlit : ∀ y ∈ "node-id=".data, ¬(y = '#') := by decide
        exact hlit c hc
      · rcases List.mem_append.mp hc with hc | hc
        · exact (ha c hc).2
        · rcases List.mem_cons.mp hc with hc | hc
          · simp [hc]
          · exact (hb c hc).2
    have hgp : getParam [("node-id".data, a.data ++ '-' :: b.data)] "node-id".data =
        some (a.data ++ '-' :: b.data) := by
      simp [getParam]
    have hdash : dashToColon (a.data ++ '-' :: b.data) =
        dashToColon a.data ++ ':' :: dashToColon b.data := dashToColon_append_dash _ _
    have hvne : dashToColon (a.data ++ '-' :: b.data) ≠ [] := by
      rw [hdash]
      simp
    have hnid : String.mk (dashToColon (a.data ++ '-' :: b.data)) =
        dashToColonS a ++ ":" ++ dashToColonS b := by
      apply String.ext
      simp [String.data_append, dashToColonS, hdash]
    constructor
    · -- the /design/ form
      have hpathc : ∀ c ∈ "design".data ++ '/' :: (fk.data ++ '/' :: name.data),
          ¬(c = '?') ∧ ¬(c = '#') := by
        intro c hc
        rcases List.mem_append.mp hc with hc | hc
        · have hlit : ∀ y ∈ "design".data, ¬(y = '?') ∧ ¬(y = '#') := by decide
          exact hlit c hc
        · rcases List.mem_cons.mp hc with hc | hc
          · simp [hc]
          · rcases List.mem_append.mp hc with hc | hc
            · exact ⟨(hfkc c hc).2.1, (hfkc c hc).2.2⟩
            · rcases List.mem_cons.mp hc with hc | hc
              · simp [hc]
              · exact hname c hc
      have hdata : (scheme ++ "://" ++ host ++ "/design/" ++ fk ++ "/" ++ name ++
          "?node-id=" ++ a ++ "-" ++ b).data =
          scheme.data ++ ':' :: '/' :: '/' ::
            (host.data ++ '/' :: (("design".data ++ '/' :: (fk.data ++ '/' :: name.data)) ++
              '?' :: ("node-id=".data ++ (a.data ++ '-' :: b.data)))) := by
        simp [String.data_append]
      have hurl := parseURLAux_canonical scheme.data host.data
        ("design".data ++ '/' :: (fk.data ++ '/' :: name.data))
        ("node-id=".data ++ (a.data ++ '-' :: b.data))
        hs hsAll hh hhc hpathc hquery
      rw [parseFigmaUrl_core _ _ (a.data ++ '-' :: b.data)
        (by rw [hdata]; exact hurl)
        (by rw [scanMatch_design fk.data name.data hfkne fun x hx => (hfkc x hx).1]
            exact hfkne)
        (by rw [parseQuery_nodeId _ hvAmp]; exact hgp)
        hvne]
      rw [scanMatch_design fk.data name.data hfkne fun x hx => (hfkc x hx).1, hnid]
    · -- the /file/ form
      have hpathc : ∀ c ∈ "file".data ++ '/' :: (fk.data ++ '/' :: name.data),
          ¬(c = '?') ∧ ¬(c = '#') := by
        intro c hc
        rcases List.mem_append.mp hc with hc | hc
        · have hlit : ∀ y ∈ "file".data, ¬(y = '?') ∧ ¬(y = '#') := by decide
          exact hlit c hc
        · rcases List.mem_cons.mp hc with hc | hc
          · simp [hc]
          · rcases List.mem_append.mp hc with hc | hc
            · exact ⟨(hfkc c hc).2.1, (hfkc c hc).2.2⟩
            · rcases List.mem_cons.mp hc with hc | hc
              · simp [hc]
              · exact hname c hc
      have hdata : (scheme ++ "://" ++ host ++ "/file/" ++ fk ++ "/" ++ name ++
          "?node-id=" ++ a ++ "-" ++ b).data =
          scheme.data ++ ':' :: '/' :: '/' ::
            (host.data ++ '/' :: (("file".data ++ '/' :: (fk.data ++ '/' :: name.data)) ++
              '?' :: ("node-id=".data ++ (a.data ++ '-' :: b.data)))) := by
        simp [String.data_append]
      have hurl := parseURLAux_canonical scheme.data host.data
        ("file".data ++ '/' :: (fk.data ++ '/' :: name.data))
        ("node-id=".data ++ (a.data ++ '-' :: b.data))
        hs hsAll hh hhc hpathc hquery
      rw [parseFigmaUrl_core _ _ (a.data ++ '-' :: b.data)
        (by rw [hdata]; exact hurl)
        (by rw [scanMatch_file fk.data name.data hfkne fun x hx => (hfkc x hx).1]
            exact hfkne)
        (by rw [parseQuery_nodeId _ hvAmp]; exact hgp)
        hvne]
      rw [scanMatch_file fk.data name.data hfkne fun x hx => (hfkc x hx).1, hnid]
  · intro s h
    apply String.ext
    exact dashToColon_of_no_dash s.data h
  · intro s
    apply String.ext
    exact dashToColon_idem s.data
  · intro u h
    unfold parseFigmaUrl
    rw [h]
  · intro u obj hparse hscan
    unfold parseFigmaUrl
    rw [hparse]
    simp [hscan]
  · intro u obj hparse hget
    exact parseFigmaUrl_noNodeId hparse hget

/-- Witness for C5: the literal URL
`https://www.figma.com/design/pqrs/ExampleFile?node-id=1-2` resolves to
("pqrs", "1:2"), and `notaurl` (which the URL parser rejects) yields no
match. -/
theorem parseFigmaUrl_spec_witness :
    parseFigmaUrl "https://www.figma.com/design/pqrs/ExampleFile?node-id=1-2" =
      some ("pqrs", "1:2") ∧
    parseFigmaUrl "notaurl" = none :=
  ⟨((parseFigmaUrl_spec.1 "https" "www.figma.com" "pqrs" "ExampleFile" "1" "2"
      (by decide) (by decide) (by decide) (by decide) (by decide) (by decide)
      (by decide) (by decide) (by decide)).1).trans (by decide),
   parseFigmaUrl_spec.2.2.2.1 "notaurl" (by decide)⟩

end FigmaMcp
